import Mathlib

/-!
Verification of the Meta reply-relay repository: a shallow embedding of the
`POST /api/respond` route handler (`app/api/respond/route.ts`) and of the
dashboard page's state-updating functions (`app/page.tsx`), together with a
model of JSON serialization for the local-storage persistence of automation
rules. Theorems below settle the specification claims against these
definitions.
-/

/-! ## JavaScript runtime values

Request-body fields arrive as arbitrary JSON-decoded JavaScript values; the
route's validation uses JavaScript truthiness (`!body.platform` etc.), so the
embedding keeps field values in a small universe of JS values. `object`
stands for any object or array value (always truthy, never equal to a
string). Numbers are modelled as integers; this loses `NaN` and non-integral
doubles, which no claim depends on. -/

inductive JSValue where
  | undefined
  | null
  | bool (b : Bool)
  | num (n : Int)
  | str (s : String)
  | object
deriving DecidableEq, Repr

/-- JavaScript truthiness of a `JSValue`: `undefined`, `null`, `false`, `0`
and the empty string are falsy; everything else is truthy. -/
def JSValue.truthy : JSValue → Bool
  | .undefined => false
  | .null => false
  | .bool b => b
  | .num n => n != 0
  | .str s => s != ""
  | .object => true

/-- Thrown JavaScript value: either an `Error` carrying a message, or any
non-`Error` value (whose identity the handler never inspects). -/
inductive Thrown where
  | error (msg : String)
  | nonError
deriving DecidableEq, Repr

/-- Message text the route handler's catch block extracts from a thrown
value: `error instanceof Error ? error.message : "Unexpected error while
sending response"` (route.ts lines 52-56). -/
def thrownMessage : Thrown → String
  | .error m => m
  | .nonError => "Unexpected error while sending response"

/-! ## JSON documents

Parsed JSON documents (the result of `JSON.parse`, and the shape of remote
API bodies). Number tokens are kept as their lexeme, which suffices because
no code in the repository computes with JSON numbers. -/

inductive JsonVal where
  | null
  | bool (b : Bool)
  | num (lexeme : String)
  | str (s : String)
  | arr (elems : List JsonVal)
  | obj (members : List (String × JsonVal))

/-- Property lookup on a parsed JSON object member list (first match, as
JavaScript object semantics after `JSON.parse`, whose objects have unique
keys; duplicate keys cannot arise from our printer). -/
def jsonLookup (ms : List (String × JsonVal)) (k : String) : Option JsonVal :=
  (ms.find? (fun p => p.1 == k)).map (fun p => p.2)

/-- Whether a JSON number lexeme denotes a nonzero value: some mantissa digit
(before any exponent marker) is nonzero. -/
def numLexemeNonzero (lexeme : String) : Bool :=
  (lexeme.data.takeWhile (fun c => c != 'e' && c != 'E')).any
    (fun c => '1' ≤ c && c ≤ '9')

/-- JavaScript truthiness of a JSON-decoded value. -/
def jsonTruthy : JsonVal → Bool
  | .null => false
  | .bool b => b
  | .num lexeme => numLexemeNonzero lexeme
  | .str s => s != ""
  | .arr _ => true
  | .obj _ => true

/-! ## The Meta API helper (`lib/meta.ts`) -/

/-- Modelled from the spec: the result value of `postMetaResponse`
(`lib/meta.ts` is not under `src/`). Spec section 4.1: in dry-run mode the
helper returns "a simulated success object describing the call it would have
made"; the spec's end-to-end example shows it carries `dryRun: true`.
Otherwise the remote JSON body is relayed verbatim. -/
inductive MetaResult where
  | simulated (platform targetId message channel : JSValue)
  | liveBody (body : JsonVal)

/-- Value of the `dryRun` property of a result, as read by the dashboard's
`data.result?.dryRun` (page.tsx line 326): the simulated descriptor carries
`dryRun: true`; a relayed remote body contributes its own `dryRun` member's
truthiness, if any. -/
def MetaResult.dryRunFlag : MetaResult → Bool
  | .simulated _ _ _ _ => true
  | .liveBody (.obj ms) =>
    match jsonLookup ms "dryRun" with
    | some v => jsonTruthy v
    | none => false
  | .liveBody _ => false

/-- Modelled from the spec: `postMetaResponse` from `lib/meta.ts`, which is
not under `src/`. Spec section 4.1: "Dry-run mode: when requested (or when no
token is supplied), the relay returns a simulated success object describing
the call it would have made, without any outbound network request. Otherwise
it performs exactly one outbound call and relays the remote JSON body";
thrown errors propagate to the route's catch. Spec section 6: the
`META_ACCESS_TOKEN` environment variable is the fallback token when the
request omits `accessToken`. The behaviour of the single outbound call is the
parameter `net` (either a remote JSON body or a thrown value); the second
component of the result counts outbound network requests performed. -/
def postMetaResponse (platform targetId message channel dryRun accessToken :
    JSValue) (envToken : Option String) (net : Except Thrown JsonVal) :
    Except Thrown MetaResult × Nat :=
  let tokenSupplied : Bool :=
    accessToken.truthy ||
      (match envToken with
       | some t => t != ""
       | none => false)
  if dryRun.truthy || !tokenSupplied then
    (.ok (.simulated platform targetId message channel), 0)
  else
    match net with
    | .ok body => (.ok (.liveBody body), 1)
    | .error t => (.error t, 1)

/-! ## The route handler (`app/api/respond/route.ts`) -/

/-- Request body as the route sees it after `await request.json()`, typed
`Partial<RespondRequest>`: each property access yields a JS value, with
`undefined` standing for an absent property. -/
structure RequestBody where
  platform : JSValue
  targetId : JSValue
  message : JSValue
  channel : JSValue
  dryRun : JSValue
  accessToken : JSValue
  instagramBusinessAccountId : JSValue
  replyToId : JSValue
deriving DecidableEq, Repr

/-- The four required request-body fields. -/
inductive ReqField where
  | platform
  | targetId
  | message
  | channel
deriving DecidableEq, Repr

/-- Read one of the four required fields. -/
def RequestBody.get (b : RequestBody) : ReqField → JSValue
  | .platform => b.platform
  | .targetId => b.targetId
  | .message => b.message
  | .channel => b.channel

/-- Replace one of the four required fields. -/
def RequestBody.set (b : RequestBody) : ReqField → JSValue → RequestBody
  | .platform, v => { b with platform := v }
  | .targetId, v => { b with targetId := v }
  | .message, v => { b with message := v }
  | .channel, v => { b with channel := v }

/-- Shape of every JSON body the route returns: `NextResponse.json(...)` with
an HTTP status, an `ok` flag, and optional `error` / `result` properties. -/
structure ApiResponse where
  status : Nat
  ok : Bool
  error : Option String
  result : Option MetaResult

/-- Outcome of one invocation of the route handler: the response sent, how
many times `postMetaResponse` was invoked, and how many outbound network
requests were performed. -/
structure RouteResult where
  response : ApiResponse
  metaCalls : Nat
  networkCalls : Nat

/-- The `POST` handler of `app/api/respond/route.ts`. `parsed` is the result
of `await request.json()` (which may throw on a malformed body); `envToken`
is `process.env.META_ACCESS_TOKEN`; `net` is the behaviour of the single
outbound call the Meta helper would perform. -/
def POST (parsed : Except Thrown RequestBody) (envToken : Option String)
    (net : Except Thrown JsonVal) : RouteResult :=
  match parsed with
  | .error t =>
    { response :=
        { status := 500, ok := false, error := some (thrownMessage t),
          result := none },
      metaCalls := 0, networkCalls := 0 }
  | .ok body =>
    if !body.platform.truthy || !body.targetId.truthy ||
        !body.message.truthy || !body.channel.truthy then
      { response :=
          { status := 400, ok := false,
            error := some
              "platform, targetId, message, and channel are required properties.",
            result := none },
        metaCalls := 0, networkCalls := 0 }
    else if body.channel != JSValue.str "comment" &&
        body.channel != JSValue.str "message" then
      { response :=
          { status := 400, ok := false,
            error := some "channel must be comment or message",
            result := none },
        metaCalls := 0, networkCalls := 0 }
    else
      match postMetaResponse body.platform body.targetId body.message
          body.channel body.dryRun body.accessToken envToken net with
      | (.ok r, n) =>
        { response :=
            { status := 200, ok := true, error := none, result := some r },
          metaCalls := 1, networkCalls := n }
      | (.error t, n) =>
        { response :=
            { status := 500, ok := false, error := some (thrownMessage t),
              result := none },
          metaCalls := 1, networkCalls := n }

/-- The value thrown (if any) while the route handler processes a request:
either the body-parse failure, or the exception propagating out of
`postMetaResponse` on a request that passed validation. `none` when nothing
throws. -/
def routeThrown (parsed : Except Thrown RequestBody) (envToken : Option String)
    (net : Except Thrown JsonVal) : Option Thrown :=
  match parsed with
  | .error t => some t
  | .ok body =>
    if !body.platform.truthy || !body.targetId.truthy ||
        !body.message.truthy || !body.channel.truthy then
      none
    else if body.channel != JSValue.str "comment" &&
        body.channel != JSValue.str "message" then
      none
    else
      match postMetaResponse body.platform body.targetId body.message
          body.channel body.dryRun body.accessToken envToken net with
      | (.ok _, _) => none
      | (.error t, _) => some t

/-! ## Dashboard state (`app/page.tsx`)

At the JavaScript runtime every field of an automation rule or message is a
string (the TypeScript union types are erased), so the embedding uses
`String` fields throughout. -/

/-- An automation rule (`interface AutomationRule`, page.tsx lines 17-25).
`platform` ranges over "all" / "facebook" / "instagram", `channel` over
"comment" / "message", `status` over "active" / "paused". -/
structure AutomationRule where
  id : String
  name : String
  platform : String
  channel : String
  trigger : String
  response : String
  status : String
deriving DecidableEq, Repr

/-- The two seeded automation rules (`initialAutomations`, page.tsx
lines 45-66). -/
def initialAutomations : List AutomationRule :=
  [{ id := "auto-lead", name := "Lead capture (comments)", platform := "all",
     channel := "comment", trigger := "contains 'pricing' OR 'cost'",
     response :=
       "Thanks for your interest! I just sent you a DM with pricing and onboarding details. 🚀",
     status := "active" },
   { id := "auto-support", name := "Support escalation (DM)",
     platform := "facebook", channel := "message",
     trigger := "contains 'help' OR 'issue'",
     response :=
       "I’m looping in our support team now. Could you share the email tied to your account so we can investigate?",
     status := "active" }]

/-- The `newAutomation` form state, `Omit<AutomationRule, "id" | "status">`
(page.tsx lines 119-125). -/
structure AutomationDraft where
  name : String
  platform : String
  channel : String
  trigger : String
  response : String
deriving DecidableEq, Repr

/-- The blank draft the form resets to (page.tsx lines 120-125 and
220-226). -/
def emptyDraft : AutomationDraft :=
  { name := "", platform := "all", channel := "comment", trigger := "",
    response := "" }

/-- The rule object `addAutomation` constructs (page.tsx lines 214-218):
`{ id: automation-<Date.now()>, status: automationStatus,
...newAutomation }`. -/
def mkRule (now : Nat) (automationStatus : String) (draft : AutomationDraft) :
    AutomationRule :=
  { id := "automation-" ++ toString now, name := draft.name,
    platform := draft.platform, channel := draft.channel,
    trigger := draft.trigger, response := draft.response,
    status := automationStatus }

/-- The slice of component state `addAutomation` reads and writes. -/
structure AddResult where
  automations : List AutomationRule
  newAutomation : AutomationDraft
  automationFeedback : Option String
deriving DecidableEq, Repr

/-- The `addAutomation` handler (page.tsx lines 203-228): JavaScript
truthiness makes `!newAutomation.name` etc. reject exactly the empty
string. On success the new rule is prepended, the draft is reset, and a
confirmation message is reported. -/
def addAutomation (now : Nat) (automationStatus : String)
    (draft : AutomationDraft) (automations : List AutomationRule)
    (_feedback : Option String) : AddResult :=
  if draft.name = "" || draft.trigger = "" || draft.response = "" then
    { automations := automations, newAutomation := draft,
      automationFeedback := some
        "Please provide a name, trigger, and response for the automation." }
  else
    let rule := mkRule now automationStatus draft
    { automations := rule :: automations, newAutomation := emptyDraft,
      automationFeedback := some
        ("Automation \"" ++ rule.name ++ "\" created.") }

/-- The `toggleAutomationStatus` handler (page.tsx lines 230-238). -/
def toggleAutomationStatus (id : String) (automations : List AutomationRule) :
    List AutomationRule :=
  automations.map (fun rule =>
    if rule.id = id then
      { rule with
        status := if rule.status = "active" then "paused" else "active" }
    else rule)

/-- The `deleteAutomation` handler (page.tsx lines 240-242). -/
def deleteAutomation (id : String) (automations : List AutomationRule) :
    List AutomationRule :=
  automations.filter (fun rule => rule.id != id)

/-- An inbox message (`SocialMessage` from `data/sampleMessages`; the
interface is read off its uses in page.tsx: id, platform, type, author,
avatar, snippet, timestamp, status, optional intent and permalink). -/
structure SocialMessage where
  id : String
  platform : String
  type : String
  author : String
  avatar : String
  snippet : String
  timestamp : String
  status : String
  intent : Option String
  permalink : Option String
deriving DecidableEq, Repr

/-- An activity-log entry (`interface ActivityEntry`, page.tsx
lines 27-35). -/
structure ActivityEntry where
  id : String
  messageId : String
  platform : String
  summary : String
  timestamp : String
  outcome : String
  meta : Option MetaResult

/-- The slice of component state `handleSendReply` reads and writes
(page.tsx lines 110-136). -/
structure ClientState where
  messages : List SocialMessage
  selectedMessageId : Option String
  activityLog : List ActivityEntry
  composerValue : String
  isSending : Bool
  composerFeedback : Option String

/-- Outcome of the `fetch("/api/respond", ...)` round trip inside
`handleSendReply`: either the fetch (or `response.json()`) threw, or it
produced a response with 2xx-ness `httpOk` and JSON body `data`. -/
inductive DispatchOutcome where
  | threw (t : Thrown)
  | replied (httpOk : Bool) (data : ApiResponse)

/-- Message of the `Error` thrown on an unsuccessful dispatch (page.tsx
lines 304-309): `(data && data.error) || "Meta API rejected the request.
Double-check credentials."` — the default applies both when `error` is
absent and when it is the (falsy) empty string. -/
def rejectionMessage (data : ApiResponse) : String :=
  match data.error with
  | some m =>
    if m = "" then "Meta API rejected the request. Double-check credentials."
    else m
  | none => "Meta API rejected the request. Double-check credentials."

/-- The error-outcome activity entry built in the catch block (page.tsx
lines 339-351). -/
def errorEntry (sel : SocialMessage) (msgText : String) (now : Nat)
    (nowIso : String) : ActivityEntry :=
  { id := "log-error-" ++ toString now, messageId := sel.id,
    platform := sel.platform, summary := "Failed to reply: " ++ msgText,
    timestamp := nowIso, outcome := "error", meta := none }

/-- The `handleSendReply` handler (page.tsx lines 272-360). `now` models
`Date.now()`, `nowIso` models `new Date().toISOString()`, and `outcome` the
result of the fetch round trip. The guard `if (!selectedMessage) return`
leaves the state unchanged; otherwise the success path marks the selected
message responded, prepends a sent/scheduled entry and clears the composer,
while the catch path prepends an error entry and leaves the composer as it
was. The `finally` block resets `isSending`. -/
def handleSendReply (st : ClientState) (_reply : String) (now : Nat)
    (nowIso : String) (outcome : DispatchOutcome) : ClientState :=
  match st.messages.find? (fun m => st.selectedMessageId == some m.id) with
  | none => st
  | some sel =>
    match outcome with
    | .threw t =>
      let msgText := match t with
        | .error m => m
        | .nonError => "Unknown error"
      let fb := match t with
        | .error m => m
        | .nonError => "Unexpected error while sending reply."
      { st with
        isSending := false,
        activityLog := errorEntry sel msgText now nowIso :: st.activityLog,
        composerFeedback := some fb }
    | .replied httpOk data =>
      if httpOk && data.ok then
        let dry := match data.result with
          | some r => r.dryRunFlag
          | none => false
        { st with
          isSending := false,
          messages := st.messages.map (fun m =>
            if m.id = sel.id then { m with status := "responded" } else m),
          activityLog :=
            { id := "log-" ++ toString now, messageId := sel.id,
              platform := sel.platform,
              summary :=
                "Sent " ++ sel.platform ++ " " ++ sel.type ++ " reply",
              timestamp := nowIso,
              outcome := if dry then "scheduled" else "sent",
              meta := data.result } :: st.activityLog,
          composerValue := "",
          composerFeedback := some
            (if dry then
              "Reply simulated successfully (dry run). Provide a Meta token to send for real."
            else "Reply dispatched successfully.") }
      else
        let msgText := rejectionMessage data
        { st with
          isSending := false,
          activityLog := errorEntry sel msgText now nowIso :: st.activityLog,
          composerFeedback := some msgText }

/-! ## JSON serialization (`JSON.stringify` / `JSON.parse`)

The persist effect (page.tsx lines 153-160) stores
`JSON.stringify(automations)` under the `agentic-automations-v1` key, and the
load effect (lines 138-151) reads it back through `JSON.parse`, ignoring
payloads that fail to parse. Below is a character-level model of the two
builtins: a printer specialised to automation-rule lists (the only value the
repository ever stringifies) and a full JSON parser. -/

/-- Lower-case hexadecimal digit. -/
def hexDigitChar (n : Nat) : Char :=
  if n < 10 then Char.ofNat (48 + n) else Char.ofNat (87 + n)

/-- Escape of a single character inside a JSON string literal, as
`JSON.stringify` emits it: `"` and `\` get two-character escapes, the common
control characters get their short forms, the remaining control characters
get `\u00XX`, and every other character is emitted verbatim. -/
def escChar (c : Char) : List Char :=
  if c = '"' then ['\\', '"']
  else if c = '\\' then ['\\', '\\']
  else if c = '\x08' then ['\\', 'b']
  else if c = '\x0c' then ['\\', 'f']
  else if c = '\n' then ['\\', 'n']
  else if c = '\r' then ['\\', 'r']
  else if c = '\t' then ['\\', 't']
  else if c.toNat < 32 then
    ['\\', 'u', '0', '0', hexDigitChar (c.toNat / 16), hexDigitChar (c.toNat % 16)]
  else [c]

/-- Escape a whole character sequence. -/
def escList : List Char → List Char
  | [] => []
  | c :: cs => escChar c ++ escList cs

/-- Printed JSON string literal. -/
def printStr (s : String) : List Char :=
  '"' :: (escList s.data ++ ['"'])

/-- Printed object member `"key":"value"`. -/
def printMember (k v : String) : List Char :=
  printStr k ++ ':' :: printStr v

/-- Member list of the printed JSON object for one automation rule, keys in
declaration order, including the closing brace. -/
def printRuleBody (r : AutomationRule) : List Char :=
  printMember "id" r.id ++
    ',' :: (printMember "name" r.name ++
    ',' :: (printMember "platform" r.platform ++
    ',' :: (printMember "channel" r.channel ++
    ',' :: (printMember "trigger" r.trigger ++
    ',' :: (printMember "response" r.response ++
    ',' :: (printMember "status" r.status ++ ['}']))))))

/-- Printed JSON object for one automation rule. -/
def printRule (r : AutomationRule) : List Char :=
  '{' :: printRuleBody r

/-- Comma-separated continuation of a printed rule array. -/
def printRulesTail : List AutomationRule → List Char
  | [] => []
  | r :: rs => ',' :: (printRule r ++ printRulesTail rs)

/-- Printed JSON array of automation rules. -/
def printRules : List AutomationRule → List Char
  | [] => ['[', ']']
  | r :: rs => '[' :: (printRule r ++ (printRulesTail rs ++ [']']))

/-- Model of `JSON.stringify(automations)`. -/
def stringifyAutomations (l : List AutomationRule) : String :=
  String.mk (printRules l)

/-- JSON whitespace. -/
def isJsonWs (c : Char) : Bool :=
  c = ' ' || c = '\t' || c = '\n' || c = '\r'

/-- Drop leading JSON whitespace. -/
def skipWs : List Char → List Char
  | [] => []
  | c :: cs => if isJsonWs c then skipWs cs else c :: cs

/-- Value of one hexadecimal digit. -/
def hexVal (c : Char) : Option Nat :=
  if '0' ≤ c ∧ c ≤ '9' then some (c.toNat - 48)
  else if 'a' ≤ c ∧ c ≤ 'f' then some (c.toNat - 87)
  else if 'A' ≤ c ∧ c ≤ 'F' then some (c.toNat - 55)
  else none

/-- Character denoted by a single-character escape code. -/
def escCode (e : Char) : Option Char :=
  if e = '"' then some '"'
  else if e = '\\' then some '\\'
  else if e = '/' then some '/'
  else if e = 'b' then some '\x08'
  else if e = 'f' then some '\x0c'
  else if e = 'n' then some '\n'
  else if e = 'r' then some '\r'
  else if e = 't' then some '\t'
  else none

/-- Prepend a character to the string being accumulated by
`parseStrBody`. -/
def consHead (c : Char) :
    Option (List Char × List Char) → Option (List Char × List Char)
  | some (s, rest) => some (c :: s, rest)
  | none => none

/-- Body of a JSON string literal, after the opening quote: characters up to
the closing quote, resolving escapes (`\uXXXX` inlined as a four-character
match) and rejecting raw control characters. -/
def parseStrBody : List Char → Option (List Char × List Char)
  | [] => none
  | c :: rest =>
    if c = '"' then some ([], rest)
    else if c = '\\' then
      match rest with
      | [] => none
      | e :: rest2 =>
        if e = 'u' then
          match rest2 with
          | a :: b :: c2 :: d :: rest3 =>
            match hexVal a, hexVal b, hexVal c2, hexVal d with
            | some x, some y, some z, some w =>
              consHead (Char.ofNat ((((x * 16 + y) * 16 + z) * 16 + w)))
                (parseStrBody rest3)
            | _, _, _, _ => none
          | _ => none
        else
          match escCode e with
          | some d => consHead d (parseStrBody rest2)
          | none => none
    else if c.toNat < 32 then none
    else consHead c (parseStrBody rest)

/-- Run of decimal digits (possibly empty). -/
def parseDigits : List Char → List Char × List Char
  | [] => ([], [])
  | c :: cs =>
    if '0' ≤ c ∧ c ≤ '9' then
      let p := parseDigits cs
      (c :: p.1, p.2)
    else ([], c :: cs)

/-- JSON number token, returned as its lexeme: optional minus sign, integer
part (a leading `0` takes no further digits), optional fraction, optional
exponent. -/
def parseNumber (cs : List Char) : Option (List Char × List Char) :=
  let signed := match cs with
    | '-' :: t => (['-'], t)
    | _ => (([] : List Char), cs)
  match signed.2 with
  | [] => none
  | c :: t =>
    if ¬('0' ≤ c ∧ c ≤ '9') then none
    else
      let ip : List Char × List Char :=
        if c = '0' then ([c], t) else parseDigits signed.2
      let fp : Option (List Char × List Char) :=
        match ip.2 with
        | '.' :: t2 =>
          match parseDigits t2 with
          | ([], _) => none
          | (ds, r) => some ('.' :: ds, r)
        | _ => some ([], ip.2)
      match fp with
      | none => none
      | some (fdigits, afterFrac) =>
        let ep : Option (List Char × List Char) :=
          match afterFrac with
          | e :: t3 =>
            if e = 'e' ∨ e = 'E' then
              let sgn := match t3 with
                | '+' :: t4 => (['+'], t4)
                | '-' :: t4 => (['-'], t4)
                | _ => (([] : List Char), t3)
              match parseDigits sgn.2 with
              | ([], _) => none
              | (ds, r) => some (e :: (sgn.1 ++ ds), r)
            else some ([], afterFrac)
          | [] => some ([], afterFrac)
        match ep with
        | none => none
        | some (edigits, rest) =>
          some (signed.1 ++ ip.1 ++ fdigits ++ edigits, rest)

mutual

/-- One JSON value, preceded by optional whitespace. Fuel bounds the mutual
recursion; `parseJson` supplies fuel ample for any input it can succeed
on. -/
def parseVal : Nat → List Char → Option (JsonVal × List Char)
  | 0, _ => none
  | f + 1, cs =>
    match skipWs cs with
    | [] => none
    | c :: rest =>
      if c = '"' then
        match parseStrBody rest with
        | some (s, r) => some (.str (String.mk s), r)
        | none => none
      else if c = '[' then
        match skipWs rest with
        | ']' :: r => some (.arr [], r)
        | rest2 =>
          match parseElems f rest2 with
          | some (es, r) => some (.arr es, r)
          | none => none
      else if c = '{' then
        match skipWs rest with
        | '}' :: r => some (.obj [], r)
        | rest2 =>
          match parseMembers f rest2 with
          | some (ms, r) => some (.obj ms, r)
          | none => none
      else if c = 't' then
        match rest with
        | 'r' :: 'u' :: 'e' :: r => some (.bool true, r)
        | _ => none
      else if c = 'f' then
        match rest with
        | 'a' :: 'l' :: 's' :: 'e' :: r => some (.bool false, r)
        | _ => none
      else if c = 'n' then
        match rest with
        | 'u' :: 'l' :: 'l' :: r => some (.null, r)
        | _ => none
      else
        match parseNumber (c :: rest) with
        | some (lexeme, r) => some (.num (String.mk lexeme), r)
        | none => none

/-- Nonempty comma-separated element list of a JSON array, consuming the
closing bracket. -/
def parseElems : Nat → List Char → Option (List JsonVal × List Char)
  | 0, _ => none
  | f + 1, cs =>
    match parseVal f cs with
    | none => none
    | some (v, rest) =>
      match skipWs rest with
      | ',' :: rest2 =>
        match parseElems f rest2 with
        | some (vs, r) => some (v :: vs, r)
        | none => none
      | ']' :: rest2 => some ([v], rest2)
      | _ => none

/-- Nonempty comma-separated member list of a JSON object, consuming the
closing brace. -/
def parseMembers : Nat → List Char →
    Option (List (String × JsonVal) × List Char)
  | 0, _ => none
  | f + 1, cs =>
    match skipWs cs with
    | '"' :: rest =>
      match parseStrBody rest with
      | none => none
      | some (k, rest2) =>
        match skipWs rest2 with
        | ':' :: rest3 =>
          match parseVal f rest3 with
          | none => none
          | some (v, rest4) =>
            match skipWs rest4 with
            | ',' :: rest5 =>
              match parseMembers f rest5 with
              | some (ms, r) => some ((String.mk k, v) :: ms, r)
              | none => none
            | '}' :: rest5 => some ([(String.mk k, v)], rest5)
            | _ => none
        | _ => none
    | _ => none

end

/-- Model of `JSON.parse`: a single JSON value with nothing but whitespace
around it, `none` on any syntax error. The fuel `2 * length + 2` dominates
the recursion depth reachable on any input: between two successive fuel
ticks along a call chain at least one input character is consumed, except
that `parseElems`/`parseMembers` hand over to `parseVal` unmoved — hence
the factor two. -/
def parseJson (s : String) : Option JsonVal :=
  match parseVal (2 * s.data.length + 2) s.data with
  | some (v, rest) =>
    match skipWs rest with
    | [] => some v
    | _ => none
  | none => none

/-- JSON document a rule list prints to. -/
def encodeRule (r : AutomationRule) : JsonVal :=
  .obj [("id", .str r.id), ("name", .str r.name),
    ("platform", .str r.platform), ("channel", .str r.channel),
    ("trigger", .str r.trigger), ("response", .str r.response),
    ("status", .str r.status)]

/-- String read off a JSON value by the unchecked
`as AutomationRule[]` cast (page.tsx line 145): a string member is itself,
anything else degrades (the cast performs no validation). -/
def jstrD : Option JsonVal → String
  | some (.str s) => s
  | _ => ""

/-- One parsed rule as the unchecked cast reinterprets it. -/
def decodeRuleD (v : JsonVal) : AutomationRule :=
  match v with
  | .obj ms =>
    { id := jstrD (jsonLookup ms "id"), name := jstrD (jsonLookup ms "name"),
      platform := jstrD (jsonLookup ms "platform"),
      channel := jstrD (jsonLookup ms "channel"),
      trigger := jstrD (jsonLookup ms "trigger"),
      response := jstrD (jsonLookup ms "response"),
      status := jstrD (jsonLookup ms "status") }
  | _ =>
    { id := "", name := "", platform := "", channel := "", trigger := "",
      response := "", status := "" }

/-- A parsed document as the unchecked cast reinterprets it. -/
def decodeRulesD : JsonVal → List AutomationRule
  | .arr vs => vs.map decodeRuleD
  | _ => []

/-- The load effect (page.tsx lines 138-151): a missing or empty stored
value is skipped (`if (storedAutomations)`), a stored value that fails
`JSON.parse` is caught and ignored, and a parsed value replaces the current
rules through the unchecked cast. -/
def loadAutomations (current : List AutomationRule) (stored : Option String) :
    List AutomationRule :=
  match stored with
  | none => current
  | some s =>
    if s = "" then current
    else
      match parseJson s with
      | none => current
      | some v => decodeRulesD v

/-! ## Concrete fixtures used by the witness theorems -/

/-- Request body of the spec's end-to-end example with the `platform` field
absent. -/
def missingPlatformBody : RequestBody :=
  { platform := .undefined, targetId := .str "123", message := .str "hi",
    channel := .str "comment", dryRun := .undefined, accessToken := .undefined,
    instagramBusinessAccountId := .undefined, replyToId := .undefined }

/-- The spec's end-to-end example request:
`{platform:"facebook", targetId:"123", message:"hi", channel:"comment",
dryRun:true}`. -/
def validDryRunBody : RequestBody :=
  { platform := .str "facebook", targetId := .str "123", message := .str "hi",
    channel := .str "comment", dryRun := .bool true,
    accessToken := .undefined, instagramBusinessAccountId := .undefined,
    replyToId := .undefined }

/-- The example request with `platform` present but equal to the empty
string. -/
def emptyPlatformBody : RequestBody :=
  { validDryRunBody with platform := .str "" }

/-- A concrete inbox message. -/
def sampleMessage : SocialMessage :=
  { id := "fb-1", platform := "facebook", type := "comment",
    author := "Maya Chen", avatar := "avatar.png",
    snippet := "Loving this product!",
    timestamp := "2024-01-01T00:00:00.000Z", status := "unread",
    intent := none, permalink := none }

/-- A concrete dashboard state with `sampleMessage` selected and a draft in
the composer. -/
def sampleState : ClientState :=
  { messages := [sampleMessage], selectedMessageId := some "fb-1",
    activityLog := [], composerValue := "Thanks so much!",
    isSending := false, composerFeedback := none }

/-- A successful relay response body carrying a dry-run descriptor. -/
def sampleOkResponse : ApiResponse :=
  { status := 200, ok := true, error := none,
    result := some (.simulated (.str "facebook") (.str "fb-1") (.str "hi")
      (.str "comment")) }

/-- A filled-in automation draft. -/
def sampleDraft : AutomationDraft :=
  { name := "Greet", platform := "all", channel := "comment",
    trigger := "hi", response := "hello" }

/-! ## Round-trip of the persisted automation rules

`JSON.parse` inverts `JSON.stringify` on every printed rule list; proved by
composing a per-character lemma about string escapes, per-member and
per-object lemmas, and a final induction over the rule list. -/

lemma mkData (s : String) : String.mk s.data = s := rfl

lemma escChar_length (c : Char) : 1 ≤ (escChar c).length := by
  unfold escChar; split_ifs <;> simp

lemma escList_length_ge (cs : List Char) : cs.length ≤ (escList cs).length := by
  induction cs with
  | nil => simp [escList]
  | cons c cs ih =>
    have h1 := escChar_length c
    simp only [escList, List.length_append, List.length_cons]
    omega

lemma hexVal_hexDigitChar (n : Nat) (h : n < 16) :
    hexVal (hexDigitChar n) = some n := by
  interval_cases n <;> decide

lemma psb_close (rest : List Char) :
    parseStrBody ('"' :: rest) = some ([], rest) := by
  conv_lhs => rw [parseStrBody.eq_def]
  simp

lemma psb_esc (e d : Char) (rest : List Char) (hu : ¬e = 'u')
    (h : escCode e = some d) :
    parseStrBody ('\\' :: e :: rest) = consHead d (parseStrBody rest) := by
  conv_lhs => rw [parseStrBody.eq_def]
  simp [hu, h]

lemma psb_hex (a b c2 d : Char) (x y z w : Nat) (rest : List Char)
    (ha : hexVal a = some x) (hb : hexVal b = some y) (hc : hexVal c2 = some z)
    (hd : hexVal d = some w) :
    parseStrBody ('\\' :: 'u' :: a :: b :: c2 :: d :: rest) =
      consHead (Char.ofNat ((((x * 16 + y) * 16 + z) * 16 + w)))
        (parseStrBody rest) := by
  conv_lhs => rw [parseStrBody.eq_def]
  simp [ha, hb, hc, hd]

lemma psb_plain (c : Char) (rest : List Char) (h1 : ¬c = '"') (h2 : ¬c = '\\')
    (h3 : ¬c.toNat < 32) :
    parseStrBody (c :: rest) = consHead c (parseStrBody rest) := by
  conv_lhs => rw [parseStrBody.eq_def]
  simp [h1, h2, h3]

lemma parseStrBody_escList (cs : List Char) (rest : List Char) :
    parseStrBody (escList cs ++ '"' :: rest) = some (cs, rest) := by
  induction cs generalizing rest with
  | nil => simp [escList, psb_close]
  | cons c cs ih =>
    by_cases h1 : c = '"'
    · subst h1
      have hc : escChar '"' = ['\\', '"'] := by decide
      simp only [escList, hc, List.cons_append, List.nil_append]
      rw [psb_esc '"' '"' _ (by decide) (by decide)]
      simp [consHead, ih]
    by_cases h2 : c = '\\'
    · subst h2
      have hc : escChar '\\' = ['\\', '\\'] := by decide
      simp only [escList, hc, List.cons_append, List.nil_append]
      rw [psb_esc '\\' '\\' _ (by decide) (by decide)]
      simp [consHead, ih]
    by_cases h3 : c = '\x08'
    · subst h3
      have hc : escChar '\x08' = ['\\', 'b'] := by decide
      simp only [escList, hc, List.cons_append, List.nil_append]
      rw [psb_esc 'b' '\x08' _ (by decide) (by decide)]
      simp [consHead, ih]
    by_cases h4 : c = '\x0c'
    · subst h4
      have hc : escChar '\x0c' = ['\\', 'f'] := by decide
      simp only [escList, hc, List.cons_append, List.nil_append]
      rw [psb_esc 'f' '\x0c' _ (by decide) (by decide)]
      simp [consHead, ih]
    by_cases h5 : c = '\n'
    · subst h5
      have hc : escChar '\n' = ['\\', 'n'] := by decide
      simp only [escList, hc, List.cons_append, List.nil_append]
      rw [psb_esc 'n' '\n' _ (by decide) (by decide)]
      simp [consHead, ih]
    by_cases h6 : c = '\r'
    · subst h6
      have hc : escChar '\r' = ['\\', 'r'] := by decide
      simp only [escList, hc, List.cons_append, List.nil_append]
      rw [psb_esc 'r' '\r' _ (by decide) (by decide)]
      simp [consHead, ih]
    by_cases h7 : c = '\t'
    · subst h7
      have hc : escChar '\t' = ['\\', 't'] := by decide
      simp only [escList, hc, List.cons_append, List.nil_append]
      rw [psb_esc 't' '\t' _ (by decide) (by decide)]
      simp [consHead, ih]
    by_cases h8 : c.toNat < 32
    · have hc : escChar c =
          ['\\', 'u', '0', '0', hexDigitChar (c.toNat / 16),
            hexDigitChar (c.toNat % 16)] := by
        simp [escChar, h1, h2, h3, h4, h5, h6, h7, h8]
      have e1 : hexVal (hexDigitChar (c.toNat / 16)) = some (c.toNat / 16) :=
        hexVal_hexDigitChar _ (by omega)
      have e2 : hexVal (hexDigitChar (c.toNat % 16)) = some (c.toNat % 16) :=
        hexVal_hexDigitChar _ (by omega)
      have e3 : c.toNat / 16 * 16 + c.toNat % 16 = c.toNat := by omega
      have ez : hexVal '0' = some 0 := by decide
      simp only [escList, hc, List.cons_append, List.nil_append]
      rw [psb_hex '0' '0' _ _ 0 0 _ _ _ ez ez e1 e2]
      simp [consHead, ih, e3, Char.ofNat_toNat]
    · have hc : escChar c = [c] := by
        simp [escChar, h1, h2, h3, h4, h5, h6, h7, h8]
      simp only [escList, hc, List.cons_append, List.nil_append]
      rw [psb_plain _ _ h1 h2 h8]
      simp [consHead, ih]

lemma parseVal_str (s : String) (rest : List Char) (f : Nat) (hf : 1 ≤ f) :
    parseVal f ('"' :: (escList s.data ++ ('"' :: rest))) =
      some (.str s, rest) := by
  obtain ⟨g, rfl⟩ : ∃ g, f = g + 1 := ⟨f - 1, by omega⟩
  simp [parseVal, skipWs, isJsonWs, parseStrBody_escList, mkData]

lemma parseMembers_seg_cons (k v : String) (tail : List Char) (f : Nat)
    (hf : 2 ≤ f) :
    parseMembers f
      ('"' :: (escList k.data ++ ('"' :: (':' :: ('"' ::
        (escList v.data ++ ('"' :: (',' :: tail)))))))) =
      Option.map (fun p => ((k, JsonVal.str v) :: p.1, p.2))
        (parseMembers (f - 1) tail) := by
  obtain ⟨g, rfl⟩ : ∃ g, f = g + 2 := ⟨f - 2, by omega⟩
  have hval := parseVal_str v (',' :: tail) (g + 1) (by omega)
  conv_lhs => rw [parseMembers.eq_def]
  rcases hm : parseMembers (g + 1) tail with _ | ⟨ms, r⟩ <;>
    simp [skipWs, isJsonWs, parseStrBody_escList, mkData, hval, hm]

lemma parseMembers_seg_last (k v : String) (tail : List Char) (f : Nat)
    (hf : 2 ≤ f) :
    parseMembers f
      ('"' :: (escList k.data ++ ('"' :: (':' :: ('"' ::
        (escList v.data ++ ('"' :: ('}' :: tail)))))))) =
      some ([(k, JsonVal.str v)], tail) := by
  obtain ⟨g, rfl⟩ : ∃ g, f = g + 2 := ⟨f - 2, by omega⟩
  have hval := parseVal_str v ('}' :: tail) (g + 1) (by omega)
  conv_lhs => rw [parseMembers.eq_def]
  simp [skipWs, isJsonWs, parseStrBody_escList, mkData, hval]

lemma parseVal_ruleObj (r : AutomationRule) (X : List Char) (f : Nat)
    (hf : 9 ≤ f) :
    parseVal f ('{' :: (printRuleBody r ++ X)) = some (encodeRule r, X) := by
  obtain ⟨g, rfl⟩ : ∃ g, f = g + 1 := ⟨f - 1, by omega⟩
  conv_lhs => rw [parseVal.eq_def]
  simp only [printRuleBody, printMember, printStr, List.cons_append,
    List.append_assoc, List.nil_append]
  simp [skipWs, isJsonWs]
  rw [parseMembers_seg_cons "id" r.id _ g (by omega)]
  rw [parseMembers_seg_cons "name" r.name _ (g - 1) (by omega)]
  rw [parseMembers_seg_cons "platform" r.platform _ (g - 1 - 1) (by omega)]
  rw [parseMembers_seg_cons "channel" r.channel _ (g - 1 - 1 - 1) (by omega)]
  rw [parseMembers_seg_cons "trigger" r.trigger _ (g - 1 - 1 - 1 - 1)
    (by omega)]
  rw [parseMembers_seg_cons "response" r.response _ (g - 1 - 1 - 1 - 1 - 1)
    (by omega)]
  rw [parseMembers_seg_last "status" r.status _ (g - 1 - 1 - 1 - 1 - 1 - 1)
    (by omega)]
  simp [encodeRule]

lemma skipWs_comma (l : List Char) : skipWs (',' :: l) = ',' :: l := by
  simp [skipWs, isJsonWs]

lemma skipWs_rbracket (l : List Char) : skipWs (']' :: l) = ']' :: l := by
  simp [skipWs, isJsonWs]

lemma skipWs_nil : skipWs [] = [] := rfl

lemma parseElems_rules (rs : List AutomationRule) :
    ∀ (r : AutomationRule) (rest : List Char) (f : Nat),
    10 + rs.length ≤ f →
    parseElems f
      ('{' :: (printRuleBody r ++ (printRulesTail rs ++ (']' :: rest)))) =
      some ((r :: rs).map encodeRule, rest) := by
  induction rs with
  | nil =>
    intro r rest f hf
    obtain ⟨g, rfl⟩ : ∃ g, f = g + 1 := ⟨f - 1, by omega⟩
    conv_lhs => rw [parseElems.eq_def]
    simp only [printRulesTail, List.nil_append]
    rw [parseVal_ruleObj r _ g (by omega)]
    simp [skipWs_rbracket]
  | cons r2 rs ih =>
    intro r rest f hf
    simp only [List.length_cons] at hf
    obtain ⟨g, rfl⟩ : ∃ g, f = g + 1 := ⟨f - 1, by omega⟩
    conv_lhs => rw [parseElems.eq_def]
    simp only [printRulesTail, printRule, List.cons_append, List.append_assoc]
    rw [parseVal_ruleObj r _ g (by omega)]
    simp only [skipWs_comma]
    rw [ih r2 rest g (by omega)]
    simp

lemma dataMk (cs : List Char) : (String.mk cs).data = cs := rfl

lemma printMember_length (k v : String) : 5 ≤ (printMember k v).length := by
  simp only [printMember, printStr, List.length_append, List.length_cons,
    List.length_singleton]
  omega

lemma printRuleBody_length (r : AutomationRule) :
    8 ≤ (printRuleBody r).length := by
  have h1 := printMember_length "id" r.id
  have h2 := printMember_length "name" r.name
  simp only [printRuleBody, List.length_append, List.length_cons,
    List.length_singleton]
  omega

lemma printRulesTail_length (rs : List AutomationRule) :
    rs.length ≤ (printRulesTail rs).length := by
  induction rs with
  | nil => simp [printRulesTail]
  | cons r rs ih =>
    simp only [printRulesTail, printRule, List.length_cons,
      List.length_append]
    omega

lemma parseJson_stringify (l : List AutomationRule) :
    parseJson (stringifyAutomations l) = some (.arr (l.map encodeRule)) := by
  cases l with
  | nil => rfl
  | cons r rs =>
    have hlen : 10 + rs.length ≤ 2 * (printRules (r :: rs)).length + 1 := by
      have h1 := printRuleBody_length r
      have h2 := printRulesTail_length rs
      simp only [printRules, printRule, List.length_cons, List.length_append,
        List.length_singleton]
      omega
    unfold parseJson stringifyAutomations
    rw [dataMk]
    conv_lhs => rw [parseVal.eq_def]
    simp only [printRules, printRule, List.cons_append, List.append_assoc]
    simp [skipWs, isJsonWs]
    rw [parseElems_rules rs r []
      (2 * ((printRuleBody r).length + ((printRulesTail rs).length + 1) + 1 + 1) + 1)
      (by have h1 := printRuleBody_length r
          have h2 := printRulesTail_length rs; omega)]
    simp [skipWs_nil]

lemma decodeRuleD_encodeRule (r : AutomationRule) :
    decodeRuleD (encodeRule r) = r := rfl

lemma decodeRulesD_encode (l : List AutomationRule) :
    decodeRulesD (.arr (l.map encodeRule)) = l := by
  induction l with
  | nil => rfl
  | cons r rs ih =>
    simp only [decodeRulesD, List.map_cons, decodeRuleD_encodeRule]
    simp only [decodeRulesD] at ih
    simp [ih]

lemma stringifyAutomations_ne_empty (l : List AutomationRule) :
    ¬stringifyAutomations l = "" := by
  cases l with
  | nil => decide
  | cons r rs =>
    intro h
    have hd := congrArg String.data h
    simp [stringifyAutomations, dataMk, printRules] at hd

lemma loadAutomations_stringify (cur l : List AutomationRule) :
    loadAutomations cur (some (stringifyAutomations l)) = l := by
  simp only [loadAutomations]
  rw [if_neg (stringifyAutomations_ne_empty l), parseJson_stringify]
  simp only []
  exact decodeRulesD_encode l

/-! ## The claims -/

/-- C1: for every request to `POST /api/respond` whose body is missing any
of the four required fields `platform`, `targetId`, `message`, `channel`, or
whose `channel` field is a value other than `"comment"` or `"message"`, the
handler returns HTTP status 400 with body `{ ok: false, error: <string> }`,
and does not call `postMetaResponse`. -/
theorem respond_validation_rejects_with_400
    (body : RequestBody) (envToken : Option String)
    (net : Except Thrown JsonVal)
    (h : body.platform = .undefined ∨ body.targetId = .undefined ∨
      body.message = .undefined ∨ body.channel = .undefined ∨
      (body.channel ≠ .str "comment" ∧ body.channel ≠ .str "message")) :
    (POST (.ok body) envToken net).response.status = 400 ∧
    (POST (.ok body) envToken net).response.ok = false ∧
    ((POST (.ok body) envToken net).response.error).isSome = true ∧
    (POST (.ok body) envToken net).metaCalls = 0 := by
  by_cases h1 : (!body.platform.truthy || !body.targetId.truthy ||
      !body.message.truthy || !body.channel.truthy) = true
  · simp [POST, h1]
  · have htr : body.platform.truthy = true ∧ body.targetId.truthy = true ∧
        body.message.truthy = true ∧ body.channel.truthy = true := by
      simp only [Bool.or_eq_true, Bool.not_eq_true'] at h1
      push_neg at h1
      simp only [Bool.not_eq_false] at h1
      exact ⟨h1.1.1.1, h1.1.1.2, h1.1.2, h1.2⟩
    have hch : body.channel ≠ JSValue.str "comment" ∧
        body.channel ≠ JSValue.str "message" := by
      rcases h with h | h | h | h | h
      · rw [h] at htr; simp [JSValue.truthy] at htr
      · rw [h] at htr; simp [JSValue.truthy] at htr
      · rw [h] at htr; simp [JSValue.truthy] at htr
      · rw [h] at htr; simp [JSValue.truthy] at htr
      · exact h
    have h2 : (body.channel != JSValue.str "comment" &&
        body.channel != JSValue.str "message") = true := by
      simp [bne_iff_ne, hch.1, hch.2]
    simp [POST, h1, h2]

theorem respond_validation_rejects_with_400_witness :
    (POST (.ok missingPlatformBody) none (.ok .null)).response.status = 400 ∧
    (POST (.ok missingPlatformBody) none (.ok .null)).response.ok = false ∧
    ((POST (.ok missingPlatformBody) none (.ok .null)).response.error).isSome
      = true ∧
    (POST (.ok missingPlatformBody) none (.ok .null)).metaCalls = 0 :=
  respond_validation_rejects_with_400 missingPlatformBody none (.ok .null)
    (Or.inl rfl)

/-- C2: for every valid request (all four required fields present, channel
"comment" or "message") with `dryRun` set to `true`, the relay returns
`ok: true` with a simulated success object describing the call it would have
made, and performs no outbound network request. -/
theorem respond_dry_run_simulates_without_network
    (body : RequestBody) (envToken : Option String)
    (net : Except Thrown JsonVal)
    (h1 : body.platform.truthy = true) (h2 : body.targetId.truthy = true)
    (h3 : body.message.truthy = true)
    (hch : body.channel = .str "comment" ∨ body.channel = .str "message")
    (hdry : body.dryRun = .bool true) :
    (POST (.ok body) envToken net).response.status = 200 ∧
    (POST (.ok body) envToken net).response.ok = true ∧
    (POST (.ok body) envToken net).response.result =
      some (.simulated body.platform body.targetId body.message
        body.channel) ∧
    (POST (.ok body) envToken net).networkCalls = 0 := by
  have hc4 : body.channel.truthy = true := by
    rcases hch with hc | hc <;> rw [hc] <;> rfl
  have hg1 : (!body.platform.truthy || !body.targetId.truthy ||
      !body.message.truthy || !body.channel.truthy) = false := by
    rw [h1, h2, h3, hc4]; rfl
  have hdt : body.dryRun.truthy = true := by rw [hdry]; rfl
  have hg2 : (body.channel != JSValue.str "comment" &&
      body.channel != JSValue.str "message") = false := by
    rcases hch with hc | hc <;> rw [hc] <;> rfl
  simp [POST, postMetaResponse, hg1, hg2, hdt]

theorem respond_dry_run_simulates_without_network_witness :
    (POST (.ok validDryRunBody) none (.ok .null)).response.status = 200 ∧
    (POST (.ok validDryRunBody) none (.ok .null)).response.ok = true ∧
    (POST (.ok validDryRunBody) none (.ok .null)).response.result =
      some (.simulated validDryRunBody.platform validDryRunBody.targetId
        validDryRunBody.message validDryRunBody.channel) ∧
    (POST (.ok validDryRunBody) none (.ok .null)).networkCalls = 0 :=
  respond_dry_run_simulates_without_network validDryRunBody none (.ok .null)
    rfl rfl rfl (Or.inl rfl) rfl

/-- C3: for every request to `POST /api/respond` during whose processing an
error is thrown (the JSON body parse failure, or any exception from
`postMetaResponse` on a request that passed validation), the handler catches
the error and returns HTTP status 500 with body
`{ ok: false, error: <string> }`, where `error` is the thrown `Error`'s
message text when the thrown value is an `Error`. -/
theorem respond_thrown_error_returns_500
    (parsed : Except Thrown RequestBody) (envToken : Option String)
    (net : Except Thrown JsonVal) (t : Thrown)
    (h : routeThrown parsed envToken net = some t) :
    (POST parsed envToken net).response.status = 500 ∧
    (POST parsed envToken net).response.ok = false ∧
    (POST parsed envToken net).response.error = some (thrownMessage t) := by
  cases parsed with
  | error t2 =>
    simp only [routeThrown, Option.some.injEq] at h
    subst h
    simp [POST]
  | ok body =>
    by_cases h1 : (!body.platform.truthy || !body.targetId.truthy ||
        !body.message.truthy || !body.channel.truthy) = true
    · simp [routeThrown, h1] at h
    · by_cases h2 : (body.channel != JSValue.str "comment" &&
          body.channel != JSValue.str "message") = true
      · simp [routeThrown, h1, h2] at h
      · rcases hp : postMetaResponse body.platform body.targetId body.message
            body.channel body.dryRun body.accessToken envToken net with ⟨res, n⟩
        cases res with
        | ok r => simp [routeThrown, h1, h2, hp] at h
        | error t2 =>
          simp [routeThrown, h1, h2, hp] at h
          subst h
          simp [POST, h1, h2, hp]

theorem respond_thrown_error_returns_500_witness :
    (POST (.error (.error "Unexpected token o in JSON")) none
      (.ok .null)).response.status = 500 ∧
    (POST (.error (.error "Unexpected token o in JSON")) none
      (.ok .null)).response.ok = false ∧
    (POST (.error (.error "Unexpected token o in JSON")) none
      (.ok .null)).response.error = some "Unexpected token o in JSON" :=
  respond_thrown_error_returns_500 (.error (.error "Unexpected token o in JSON"))
    none (.ok .null) (.error "Unexpected token o in JSON") rfl

/-- C4: for every request that passes validation and for which
`postMetaResponse` returns a result without throwing, `POST /api/respond`
returns HTTP status 200 with body `{ ok: true, result: <that result> }`. The
witness instantiates the spec's end-to-end example
`{platform:"facebook", targetId:"123", message:"hi", channel:"comment",
dryRun:true}` and additionally checks `result.dryRun = true`. -/
theorem respond_success_returns_200_result
    (body : RequestBody) (envToken : Option String)
    (net : Except Thrown JsonVal) (r : MetaResult) (n : Nat)
    (h1 : body.platform.truthy = true) (h2 : body.targetId.truthy = true)
    (h3 : body.message.truthy = true)
    (hch : body.channel = .str "comment" ∨ body.channel = .str "message")
    (hpost : postMetaResponse body.platform body.targetId body.message
      body.channel body.dryRun body.accessToken envToken net = (.ok r, n)) :
    (POST (.ok body) envToken net).response.status = 200 ∧
    (POST (.ok body) envToken net).response.ok = true ∧
    (POST (.ok body) envToken net).response.result = some r ∧
    (POST (.ok body) envToken net).response.error = none := by
  have hc4 : body.channel.truthy = true := by
    rcases hch with hc | hc <;> rw [hc] <;> rfl
  have hg1 : (!body.platform.truthy || !body.targetId.truthy ||
      !body.message.truthy || !body.channel.truthy) = false := by
    rw [h1, h2, h3, hc4]; rfl
  have hg2 : (body.channel != JSValue.str "comment" &&
      body.channel != JSValue.str "message") = false := by
    rcases hch with hc | hc <;> rw [hc] <;> rfl
  simp [POST, hg1, hg2, hpost]

theorem respond_success_returns_200_result_witness :
    (POST (.ok validDryRunBody) none (.ok .null)).response.status = 200 ∧
    (POST (.ok validDryRunBody) none (.ok .null)).response.ok = true ∧
    (POST (.ok validDryRunBody) none (.ok .null)).response.result =
      some (.simulated (.str "facebook") (.str "123") (.str "hi")
        (.str "comment")) ∧
    ((POST (.ok validDryRunBody) none (.ok .null)).response.result).map
      MetaResult.dryRunFlag = some true := by
  have base := respond_success_returns_200_result validDryRunBody none
    (.ok .null)
    (.simulated (.str "facebook") (.str "123") (.str "hi") (.str "comment"))
    0 rfl rfl rfl (Or.inl rfl) rfl
  exact ⟨base.1, base.2.1, base.2.2.1, by rw [base.2.2.1]; rfl⟩

/-- Helper for C10: a request failing the required-fields guard produces the
fixed 400 response without reaching `postMetaResponse`. -/
lemma POST_missing_required (body : RequestBody) (envToken : Option String)
    (net : Except Thrown JsonVal)
    (hg : (!body.platform.truthy || !body.targetId.truthy ||
      !body.message.truthy || !body.channel.truthy) = true) :
    POST (.ok body) envToken net =
      { response :=
          { status := 400, ok := false,
            error := some
              "platform, targetId, message, and channel are required properties.",
            result := none },
        metaCalls := 0, networkCalls := 0 } := by
  simp [POST, hg]

/-- C10: for every request in which one of the required fields `platform`,
`targetId`, `message`, `channel` is present but equal to the empty string or
any other falsy JSON value, the handler returns 400 with `ok: false`,
exactly as if the field were absent (the whole route outcome is equal). -/
theorem respond_falsy_field_like_absent
    (body : RequestBody) (f : ReqField) (envToken : Option String)
    (net : Except Thrown JsonVal)
    (hPresent : body.get f ≠ .undefined)
    (hFalsy : (body.get f).truthy = false) :
    POST (.ok body) envToken net =
      POST (.ok (body.set f .undefined)) envToken net ∧
    (POST (.ok body) envToken net).response.status = 400 ∧
    (POST (.ok body) envToken net).response.ok = false := by
  have hgB : ∀ g : ReqField,
      (!((body.set g .undefined).platform.truthy) ||
        !((body.set g .undefined).targetId.truthy) ||
        !((body.set g .undefined).message.truthy) ||
        !((body.set g .undefined).channel.truthy)) = true := by
    intro g
    cases g <;> simp [RequestBody.set, JSValue.truthy]
  cases f with
  | platform =>
    simp only [RequestBody.get] at hFalsy
    have hgA : (!body.platform.truthy || !body.targetId.truthy ||
        !body.message.truthy || !body.channel.truthy) = true := by
      rw [hFalsy]; simp
    rw [POST_missing_required body envToken net hgA,
      POST_missing_required _ envToken net (hgB .platform)]
    exact ⟨rfl, rfl, rfl⟩
  | targetId =>
    simp only [RequestBody.get] at hFalsy
    have hgA : (!body.platform.truthy || !body.targetId.truthy ||
        !body.message.truthy || !body.channel.truthy) = true := by
      rw [hFalsy]; simp
    rw [POST_missing_required body envToken net hgA,
      POST_missing_required _ envToken net (hgB .targetId)]
    exact ⟨rfl, rfl, rfl⟩
  | message =>
    simp only [RequestBody.get] at hFalsy
    have hgA : (!body.platform.truthy || !body.targetId.truthy ||
        !body.message.truthy || !body.channel.truthy) = true := by
      rw [hFalsy]; simp
    rw [POST_missing_required body envToken net hgA,
      POST_missing_required _ envToken net (hgB .message)]
    exact ⟨rfl, rfl, rfl⟩
  | channel =>
    simp only [RequestBody.get] at hFalsy
    have hgA : (!body.platform.truthy || !body.targetId.truthy ||
        !body.message.truthy || !body.channel.truthy) = true := by
      rw [hFalsy]; simp
    rw [POST_missing_required body envToken net hgA,
      POST_missing_required _ envToken net (hgB .channel)]
    exact ⟨rfl, rfl, rfl⟩

theorem respond_falsy_field_like_absent_witness :
    POST (.ok emptyPlatformBody) none (.ok .null) =
      POST (.ok (emptyPlatformBody.set .platform .undefined)) none
        (.ok .null) ∧
    (POST (.ok emptyPlatformBody) none (.ok .null)).response.status = 400 ∧
    (POST (.ok emptyPlatformBody) none (.ok .null)).response.ok = false :=
  respond_falsy_field_like_absent emptyPlatformBody .platform none (.ok .null)
    (by decide) (by decide)

/-- C5: round-trip — for every current automation rule list and every new
rule draft with non-empty name, trigger, and response, adding the rule via
`addAutomation` and then reloading the persisted local-storage state
(`JSON.parse` of the `JSON.stringify`d list) reproduces an identical rule
list, with order preserved and the new rule first. -/
theorem addAutomation_persist_reload_roundtrip
    (now : Nat) (automationStatus : String) (draft : AutomationDraft)
    (automations : List AutomationRule) (feedback : Option String)
    (current : List AutomationRule)
    (h1 : draft.name ≠ "") (h2 : draft.trigger ≠ "") (h3 : draft.response ≠ "") :
    (addAutomation now automationStatus draft automations
      feedback).automations =
      mkRule now automationStatus draft :: automations ∧
    loadAutomations current
      (some (stringifyAutomations
        ((addAutomation now automationStatus draft automations
          feedback).automations))) =
      (addAutomation now automationStatus draft automations
        feedback).automations := by
  constructor
  · simp [addAutomation, h1, h2, h3]
  · exact loadAutomations_stringify current _

theorem addAutomation_persist_reload_roundtrip_witness :
    (addAutomation 0 "active" sampleDraft initialAutomations
      none).automations = mkRule 0 "active" sampleDraft :: initialAutomations ∧
    loadAutomations initialAutomations
      (some (stringifyAutomations
        ((addAutomation 0 "active" sampleDraft initialAutomations
          none).automations))) =
      (addAutomation 0 "active" sampleDraft initialAutomations
        none).automations :=
  addAutomation_persist_reload_roundtrip 0 "active" sampleDraft
    initialAutomations none initialAutomations (by decide) (by decide)
    (by decide)

/-- C8: for every local-storage payload under the automation-rules key that
is not valid JSON, the load step catches the parse failure, discards the
payload, and the in-memory rule list is kept unchanged. -/
theorem load_invalid_json_keeps_current_rules
    (current : List AutomationRule) (s : String)
    (hbad : parseJson s = none) :
    loadAutomations current (some s) = current := by
  by_cases he : s = "" <;> simp [loadAutomations, he, hbad]

theorem load_invalid_json_keeps_current_rules_witness :
    parseJson "\x7boops" = none ∧
    loadAutomations initialAutomations (some "\x7boops") = initialAutomations :=
  ⟨rfl, load_invalid_json_keeps_current_rules initialAutomations "\x7boops" rfl⟩

/-- C9: `addAutomation` requires non-empty name, trigger, and response — a
draft with any of the three empty only sets the validation feedback message
and leaves the rule list and the draft form state unchanged; a draft with
all three non-empty gets its rule added (prepended). -/
theorem addAutomation_requires_nonempty_fields
    (now : Nat) (automationStatus : String) (draft : AutomationDraft)
    (automations : List AutomationRule) (feedback : Option String) :
    ((draft.name = "" ∨ draft.trigger = "" ∨ draft.response = "") →
      addAutomation now automationStatus draft automations feedback =
        { automations := automations, newAutomation := draft,
          automationFeedback := some
            "Please provide a name, trigger, and response for the automation." }) ∧
    (draft.name ≠ "" → draft.trigger ≠ "" → draft.response ≠ "" →
      (addAutomation now automationStatus draft automations
        feedback).automations =
        mkRule now automationStatus draft :: automations) := by
  constructor
  · intro h
    rcases h with h | h | h <;> simp [addAutomation, h]
  · intro h1 h2 h3
    simp [addAutomation, h1, h2, h3]

theorem addAutomation_requires_nonempty_fields_witness :
    addAutomation 0 "active" emptyDraft initialAutomations none =
      { automations := initialAutomations, newAutomation := emptyDraft,
        automationFeedback := some
          "Please provide a name, trigger, and response for the automation." } ∧
    (addAutomation 0 "active" sampleDraft initialAutomations
      none).automations = mkRule 0 "active" sampleDraft :: initialAutomations :=
  ⟨(addAutomation_requires_nonempty_fields 0 "active" emptyDraft
      initialAutomations none).1 (Or.inl rfl),
   (addAutomation_requires_nonempty_fields 0 "active" sampleDraft
      initialAutomations none).2 (by decide) (by decide) (by decide)⟩

/-- C6: after a successful send, `handleSendReply` maps the message list in
place — the selected message's `status` becomes "responded" while all its
other fields and every other message are unchanged (stated pointwise at
every index) — and no operation of `handleSendReply` ever changes the length
of the message list, so no message is removed. -/
theorem sendReply_success_marks_selected_responded
    (st : ClientState) (reply : String) (now : Nat) (nowIso : String)
    (sel : SocialMessage) (httpOk : Bool) (data : ApiResponse)
    (hsel : st.messages.find? (fun m => st.selectedMessageId == some m.id) =
      some sel)
    (hok : (httpOk && data.ok) = true) :
    (handleSendReply st reply now nowIso (.replied httpOk data)).messages =
      st.messages.map (fun m =>
        if m.id = sel.id then { m with status := "responded" } else m) ∧
    (∀ i (hi : i < st.messages.length)
      (hj : i < (handleSendReply st reply now nowIso
        (.replied httpOk data)).messages.length),
      ((handleSendReply st reply now nowIso
          (.replied httpOk data)).messages[i].id = st.messages[i].id ∧
        (handleSendReply st reply now nowIso
          (.replied httpOk data)).messages[i].platform =
          st.messages[i].platform ∧
        (handleSendReply st reply now nowIso
          (.replied httpOk data)).messages[i].type = st.messages[i].type ∧
        (handleSendReply st reply now nowIso
          (.replied httpOk data)).messages[i].author = st.messages[i].author ∧
        (handleSendReply st reply now nowIso
          (.replied httpOk data)).messages[i].avatar = st.messages[i].avatar ∧
        (handleSendReply st reply now nowIso
          (.replied httpOk data)).messages[i].snippet =
          st.messages[i].snippet ∧
        (handleSendReply st reply now nowIso
          (.replied httpOk data)).messages[i].timestamp =
          st.messages[i].timestamp ∧
        (handleSendReply st reply now nowIso
          (.replied httpOk data)).messages[i].intent = st.messages[i].intent ∧
        (handleSendReply st reply now nowIso
          (.replied httpOk data)).messages[i].permalink =
          st.messages[i].permalink ∧
        (handleSendReply st reply now nowIso
          (.replied httpOk data)).messages[i].status =
          (if st.messages[i].id = sel.id then "responded"
            else st.messages[i].status))) ∧
    (∀ outcome : DispatchOutcome,
      (handleSendReply st reply now nowIso outcome).messages.length =
        st.messages.length) := by
  have hm : (handleSendReply st reply now nowIso
      (.replied httpOk data)).messages =
      st.messages.map (fun m =>
        if m.id = sel.id then { m with status := "responded" } else m) := by
    simp [handleSendReply, hsel, hok]
  refine ⟨hm, ?_, ?_⟩
  · intro i hi hj
    have hg : (handleSendReply st reply now nowIso
        (.replied httpOk data)).messages[i] =
        (fun m => if m.id = sel.id then { m with status := "responded" }
          else m) st.messages[i] := by
      simp only [hm, List.getElem_map]
    rw [hg]
    by_cases hid : st.messages[i].id = sel.id <;> simp [hid]
  · intro outcome
    cases outcome with
    | threw t => simp [handleSendReply, hsel]
    | replied hk d =>
      by_cases hc : (hk && d.ok) = true <;> simp [handleSendReply, hsel, hc]

theorem sendReply_success_marks_selected_responded_witness :
    (handleSendReply sampleState "Thanks so much!" 0
      "2024-01-02T00:00:00.000Z" (.replied true sampleOkResponse)).messages =
      [{ sampleMessage with status := "responded" }] :=
  (sendReply_success_marks_selected_responded sampleState "Thanks so much!" 0
    "2024-01-02T00:00:00.000Z" sampleMessage true sampleOkResponse rfl rfl).1

/-- C7: for every failed dispatch (the fetch threw, or the response is
non-2xx or carries `ok: false`), exactly one new activity-log entry with
outcome "error" is prepended to the activity log, while `composerValue` and
the message list are left unchanged. -/
theorem sendReply_failure_logs_error_once
    (st : ClientState) (reply : String) (now : Nat) (nowIso : String)
    (sel : SocialMessage) (outcome : DispatchOutcome)
    (hsel : st.messages.find? (fun m => st.selectedMessageId == some m.id) =
      some sel)
    (hfail : (∃ t, outcome = DispatchOutcome.threw t) ∨
      ∃ httpOk data, outcome = DispatchOutcome.replied httpOk data ∧
        (httpOk && data.ok) = false) :
    (∃ e, (handleSendReply st reply now nowIso outcome).activityLog =
      e :: st.activityLog ∧ e.outcome = "error") ∧
    (handleSendReply st reply now nowIso outcome).composerValue =
      st.composerValue ∧
    (handleSendReply st reply now nowIso outcome).messages = st.messages := by
  rcases hfail with ⟨t, rfl⟩ | ⟨httpOk, data, rfl, hq⟩
  · cases t with
    | error m =>
      exact ⟨⟨errorEntry sel m now nowIso,
        by simp [handleSendReply, hsel], rfl⟩,
        by simp [handleSendReply, hsel], by simp [handleSendReply, hsel]⟩
    | nonError =>
      exact ⟨⟨errorEntry sel "Unknown error" now nowIso,
        by simp [handleSendReply, hsel], rfl⟩,
        by simp [handleSendReply, hsel], by simp [handleSendReply, hsel]⟩
  · exact ⟨⟨errorEntry sel (rejectionMessage data) now nowIso,
      by simp [handleSendReply, hsel, hq], rfl⟩,
      by simp [handleSendReply, hsel, hq],
      by simp [handleSendReply, hsel, hq]⟩

theorem sendReply_failure_logs_error_once_witness :
    (∃ e, (handleSendReply sampleState "Thanks so much!" 0
      "2024-01-02T00:00:00.000Z"
      (.threw (.error "fetch failed"))).activityLog =
      e :: sampleState.activityLog ∧ e.outcome = "error") ∧
    (handleSendReply sampleState "Thanks so much!" 0
      "2024-01-02T00:00:00.000Z"
      (.threw (.error "fetch failed"))).composerValue =
      sampleState.composerValue ∧
    (handleSendReply sampleState "Thanks so much!" 0
      "2024-01-02T00:00:00.000Z"
      (.threw (.error "fetch failed"))).messages = sampleState.messages :=
  sendReply_failure_logs_error_once sampleState "Thanks so much!" 0
    "2024-01-02T00:00:00.000Z" sampleMessage (.threw (.error "fetch failed"))
    rfl (Or.inl ⟨.error "fetch failed", rfl⟩)
